/-
Verification of the openclaw dashboard against its design specification.

The development shallowly embeds the relevant parts of the repository:
  * `GatewayClient` (src/apps/claw_dashboard/src/services/GatewayClient.ts):
    the backoff computation, and the connect / disconnect / reconnect /
    heartbeat state machine, embedded as an explicit event-driven transition
    system over a `Client` record.  Asynchronous `await` points (the status
    probes) are modelled as pending-operation counters so that the
    interleavings permitted by the single-threaded event loop are captured.
  * the Electron main-process IPC handlers
    (src/apps/claw_dashboard/dist/preload.js): the `gateway:status`,
    `agents:list`, `sessions:list` and `agent:run` handlers.
  * the session hierarchy store
    (src/apps/claw_dashboard/src/contexts/SessionContext.tsx):
    `addSpawn` / `getChildren` over a string-keyed mapping.

Machine numbers: the JS numbers involved are small integers and the jitter
computation, which we model over `ℚ` with `Math.random()` as an explicit
rational parameter in `[0, 1)`; `Math.round` is `⌊x + 1/2⌋`.
-/
import Mathlib

namespace OpenClaw

/-- JavaScript `Math.round`: rounds half toward positive infinity,
i.e. `⌊x + 1/2⌋`. -/
def jsRound (q : ℚ) : ℤ := ⌊q + 1/2⌋

/-- Embedding of `GatewayClient.getBackoffDelay(attempt)`; the call to
`Math.random()` is passed in as the rational `rand ∈ [0, 1)`.

```js
const baseDelay = 1000;
const exponential = baseDelay * Math.pow(2, attempt);
const maxDelay = 16000;
const delay = Math.min(exponential, maxDelay);
const jitter = delay * 0.25 * (Math.random() * 2 - 1);
return Math.round(delay + jitter);
``` -/
def getBackoffDelay (attempt : ℕ) (rand : ℚ) : ℤ :=
  let baseDelay : ℚ := 1000
  let exponential : ℚ := baseDelay * 2 ^ attempt
  let maxDelay : ℚ := 16000
  let delay : ℚ := min exponential maxDelay
  let jitter : ℚ := delay * (1/4) * (rand * 2 - 1)
  jsRound (delay + jitter)

/-- The `ConnectionState` union of `GatewayClient`. -/
inductive ConnState
  | connecting | connected | reconnecting | disconnecting | disconnected | error
  deriving DecidableEq, Repr

/-- The observable events the client emits. -/
inductive GEvent
  | connecting
  | connected
  | disconnecting
  | disconnected
  | reconnecting (attempt : ℕ) (delay : ℤ) (maxAttempts : ℕ)
  | error (msg : String)
  deriving DecidableEq, Repr

/-- The mutable fields of the `GatewayClient` class, embedded as an
event-driven transition system.  The two `await this.gatewayStatus()`
suspension points (in `connect()` and in the heartbeat callback) are modelled
by pending-operation counters: invoking the operation increments the counter,
and a separate resolve action (carrying the probe outcome) runs the rest of
the method body.  This captures the single-threaded event-loop interleavings
of the source.

Timers: `setTimeout`/`setInterval` handles are modelled by a count of
currently live (scheduled, neither fired nor cancelled) timers of that kind,
plus the class field holding the last stored handle.  For the reconnect
timeout the field is `none` (field is `null`), `some true` (field references
a live timeout) or `some false` (field references a timeout that already
fired — the source never nulls the field when the timeout fires); for the
heartbeat interval a `Bool` suffices because intervals never fire themselves
dead and the source nulls the field whenever it clears.
`clearTimeout`/`clearInterval` kill only the referenced timer. -/
structure Client where
  state : ConnState
  lastError : Option String
  lastDisconnectSet : Bool
  reconnectAttempts : ℕ
  maxReconnectAttempts : ℕ
  reconnectField : Option Bool
  reconnectLive : ℕ
  heartbeatField : Bool
  heartbeatLive : ℕ
  pendingConnects : ℕ
  pendingHeartbeatProbes : ℕ
  isManualDisconnect : Bool
  deriving DecidableEq, Repr

/-- Initial field values of the `GatewayClient` class. -/
def Client.init : Client where
  state := .disconnected
  lastError := none
  lastDisconnectSet := false
  reconnectAttempts := 0
  maxReconnectAttempts := 5
  reconnectField := none
  reconnectLive := 0
  heartbeatField := false
  heartbeatLive := 0
  pendingConnects := 0
  pendingHeartbeatProbes := 0
  isManualDisconnect := false

/-- Method `stopHeartbeat()`: clear the interval if the field is set, null the field. -/
def stopHeartbeat (c : Client) : Client :=
  if c.heartbeatField then
    { c with heartbeatLive := c.heartbeatLive - 1, heartbeatField := false }
  else c

/-- Method `startHeartbeat()`: stop any prior heartbeat, then install a new interval. -/
def startHeartbeat (c : Client) : Client :=
  let c1 := stopHeartbeat c
  { c1 with heartbeatLive := c1.heartbeatLive + 1, heartbeatField := true }

/-- The `if (this.reconnectTimer) \x7b clearTimeout(...); this.reconnectTimer = null \x7d`
blocks in `connect()` and `disconnect()`.  Clearing a handle that already
fired is a no-op on the live count. -/
def clearReconnectTimer (c : Client) : Client :=
  match c.reconnectField with
  | none => c
  | some live =>
      { c with reconnectLive := if live then c.reconnectLive - 1 else c.reconnectLive,
               reconnectField := none }

/-- Method `attemptReconnect()`: bail out on manual disconnect; on exhausted
attempts settle into `disconnected` with a terminal error event; otherwise
increment the counter, go to `reconnecting`, emit the metadata event and
schedule a new timeout (the source does not clear a previously stored timer
here). -/
def attemptReconnect (c : Client) (rand : ℚ) : Client × List GEvent :=
  if c.isManualDisconnect then (c, [])
  else if c.maxReconnectAttempts ≤ c.reconnectAttempts then
    ({ c with state := .disconnected },
      [.error ("Max reconnect attempts (" ++ toString c.maxReconnectAttempts ++ ") reached")])
  else
    let delay := getBackoffDelay c.reconnectAttempts rand
    let att := c.reconnectAttempts + 1
    ({ c with reconnectAttempts := att, state := .reconnecting,
              reconnectLive := c.reconnectLive + 1, reconnectField := some true },
      [.reconnecting att delay c.maxReconnectAttempts])

/-- The synchronous prefix of `connect()` up to the `await`: clear the stored
reconnect timer, reset the manual flag, enter `connecting` and emit it.  If
the IPC bridge is unavailable the method throws before the `await` and the
`catch` block runs synchronously; otherwise the status probe is now pending. -/
def connectBegin (c : Client) (ipcAvailable : Bool) (rand : ℚ) : Client × List GEvent :=
  let c1 := clearReconnectTimer c
  let c2 := { c1 with isManualDisconnect := false, state := .connecting }
  if ipcAvailable then
    ({ c2 with pendingConnects := c2.pendingConnects + 1 }, [.connecting])
  else
    let msg := "Electron IPC not available"
    let c3 := { c2 with state := .error, lastError := some msg, lastDisconnectSet := true }
    let r := if c3.isManualDisconnect then (c3, ([] : List GEvent))
             else attemptReconnect c3 rand
    (r.1, .connecting :: .error msg :: r.2)

/-- The rest of `connect()` once the probe settles: `err = none` is the
`status.running` branch, `err = some m` covers both `status.running` being
false (`m = "Gateway is not running"`) and a rejected probe. -/
def connectResolve (c : Client) (err : Option String) (rand : ℚ) : Client × List GEvent :=
  let c0 := { c with pendingConnects := c.pendingConnects - 1 }
  match err with
  | none =>
      let c1 := { c0 with state := .connected, lastError := none, reconnectAttempts := 0 }
      (startHeartbeat c1, [.connected])
  | some m =>
      let c1 := { c0 with state := .error, lastError := some m, lastDisconnectSet := true }
      let r := if c1.isManualDisconnect then (c1, ([] : List GEvent))
               else attemptReconnect c1 rand
      (r.1, .error m :: r.2)

/-- Method `disconnect()`. -/
def disconnectCall (c : Client) : Client × List GEvent :=
  if c.state = .disconnected then (c, [])
  else
    let c1 := stopHeartbeat { c with isManualDisconnect := true }
    let c2 := clearReconnectTimer c1
    ({ c2 with state := .disconnected }, [.disconnecting, .disconnected])

/-- Method `reconnect()`: reset the retry counter and error, clear the manual flag,
then run `connect()`. -/
def reconnectBegin (c : Client) (ipcAvailable : Bool) (rand : ℚ) : Client × List GEvent :=
  connectBegin
    { c with reconnectAttempts := 0, lastError := none, isManualDisconnect := false }
    ipcAvailable rand

/-- One tick of the heartbeat interval: the callback starts and immediately
awaits the status probe. -/
def heartbeatFire (c : Client) : Client :=
  { c with pendingHeartbeatProbes := c.pendingHeartbeatProbes + 1 }

/-- The heartbeat callback after its probe settles: `err = none` means
`status.running` was true; otherwise the `catch` block records the error,
marks the state `disconnected`, stops the heartbeat and calls
`attemptReconnect()`. -/
def heartbeatResolve (c : Client) (err : Option String) (rand : ℚ) : Client × List GEvent :=
  let c0 := { c with pendingHeartbeatProbes := c.pendingHeartbeatProbes - 1 }
  match err with
  | none => (c0, [])
  | some m =>
      let c1 := stopHeartbeat
        { c0 with lastError := some m, lastDisconnectSet := true, state := .disconnected }
      attemptReconnect c1 rand

/-- A scheduled reconnect timeout fires (it is no longer live; the source
does not null the field) and its callback calls `connect()`.  `onRef` says
whether the firing timeout is the one currently stored in the field. -/
def reconnectTimerFire (c : Client) (onRef : Bool) (ipc : Bool) (rand : ℚ) :
    Client × List GEvent :=
  let c1 :=
    if onRef then { c with reconnectLive := c.reconnectLive - 1, reconnectField := some false }
    else { c with reconnectLive := c.reconnectLive - 1 }
  connectBegin c1 ipc rand

/-- The events the environment (user calls, timer firings, probe
completions) can feed the client. -/
inductive Act
  | connectCall (ipc : Bool) (rand : ℚ)
  | connectResolved (err : Option String) (rand : ℚ)
  | timerFire (onRef : Bool) (ipc : Bool) (rand : ℚ)
  | heartbeatTick
  | heartbeatResolved (err : Option String) (rand : ℚ)
  | disconnect
  | reconnectCall (ipc : Bool) (rand : ℚ)
  deriving DecidableEq, Repr

/-- Number of live reconnect timeouts not referenced by the field. -/
def unrefLive (c : Client) : ℕ :=
  c.reconnectLive - (if c.reconnectField = some true then 1 else 0)

/-- Which actions can actually occur in a given state: resolutions need a
pending probe, firings need a live timer of the right kind. -/
def enabled (c : Client) : Act → Bool
  | .connectCall .. => true
  | .connectResolved .. => decide (1 ≤ c.pendingConnects)
  | .timerFire onRef _ _ =>
      if onRef then decide (c.reconnectField = some true) else decide (1 ≤ unrefLive c)
  | .heartbeatTick => decide (1 ≤ c.heartbeatLive)
  | .heartbeatResolved .. => decide (1 ≤ c.pendingHeartbeatProbes)
  | .disconnect => true
  | .reconnectCall .. => true

/-- One step of the client: dispatch an action to the method embeddings. -/
def step (c : Client) : Act → Client × List GEvent
  | .connectCall ipc rand => connectBegin c ipc rand
  | .connectResolved err rand => connectResolve c err rand
  | .timerFire onRef ipc rand => reconnectTimerFire c onRef ipc rand
  | .heartbeatTick => (heartbeatFire c, [])
  | .heartbeatResolved err rand => heartbeatResolve c err rand
  | .disconnect => disconnectCall c
  | .reconnectCall ipc rand => reconnectBegin c ipc rand

/-- A step that only takes effect when the action is enabled (disabled
actions cannot occur on the event loop). -/
def stepE (c : Client) (a : Act) : Client × List GEvent :=
  if enabled c a then step c a else (c, [])

/-- Run a sequence of enabled actions, accumulating the emitted events. -/
def run (c : Client) : List Act → Client × List GEvent
  | [] => (c, [])
  | a :: rest =>
      let p := stepE c a
      let q := run p.1 rest
      (q.1, p.2 ++ q.2)

/-- Every action of the sequence is enabled when its turn comes. -/
def allEnabled (c : Client) : List Act → Bool
  | [] => true
  | a :: rest => enabled c a && allEnabled (step c a).1 rest

/-- States reachable from the fresh client by enabled actions. -/
inductive Reachable : Client → Prop
  | init : Reachable Client.init
  | step {c : Client} (a : Act) : Reachable c → enabled c a = true → Reachable (step c a).1

/-- The probe-failure message thrown by `connect()` when the gateway status
probe reports the gateway not running. -/
def failMsg : String := "Gateway is not running"

/-- The canonical exhaustion scenario: an initial `connect()` whose probe
fails, followed by five scheduled reconnects whose probes all fail. -/
def exhaustActs : List Act :=
  [.connectCall true 0, .connectResolved (some failMsg) 0,
   .timerFire true true 0, .connectResolved (some failMsg) 0,
   .timerFire true true 0, .connectResolved (some failMsg) 0,
   .timerFire true true 0, .connectResolved (some failMsg) 0,
   .timerFire true true 0, .connectResolved (some failMsg) 0,
   .timerFire true true 0, .connectResolved (some failMsg) 0]

/-- A connected client with a live heartbeat and one pending probe. -/
def connectedClient : Client :=
  { Client.init with
    state := .connected, heartbeatField := true,
    heartbeatLive := 1, pendingHeartbeatProbes := 1 }

/-- The explicit user calls that (re)start the connection procedure. -/
def explicitConnect : Act → Bool
  | .connectCall .. => true
  | .reconnectCall .. => true
  | _ => false

/-- The invariant that holds after a manual disconnect: the manual flag is
set and no reconnect timeout is live (nor referenced as live). -/
def ManualQuiet (c : Client) : Prop :=
  c.isManualDisconnect = true ∧ c.reconnectLive = 0 ∧ c.reconnectField ≠ some true

/-- A client mid-reconnect with the scheduled timer pending. -/
def reconnectingClient : Client :=
  { Client.init with
    state := .reconnecting, reconnectAttempts := 1,
    reconnectField := some true, reconnectLive := 1 }

/-- The heartbeat bookkeeping invariant: the live-interval count is exactly
one when the field is set and zero otherwise (the source nulls the field
whenever it clears the interval and always stops before starting). -/
def HbInv (c : Client) : Prop :=
  c.heartbeatLive = if c.heartbeatField then 1 else 0

/-- The interleaving that leaks a reconnect timer: connect, probe succeeds
(heartbeat starts), `connect()` is invoked again while connected, a heartbeat
tick probe fails while the new connect probe is still in flight (first
reconnect timer scheduled), then the connect probe fails too (second
reconnect timer scheduled without clearing the first). -/
def leakActs : List Act :=
  [.connectCall true 0, .connectResolved none 0, .connectCall true 0,
   .heartbeatTick, .heartbeatResolved (some "Gateway stopped") 0,
   .connectResolved (some failMsg) 0]

/-- A client holding one live, field-referenced reconnect timeout. -/
def timedClient : Client :=
  { Client.init with
    state := .reconnecting, reconnectAttempts := 2,
    reconnectField := some true, reconnectLive := 1 }

/-- Result of `execOpenClaw` in dist/preload.js: it resolves
`\x7b error: message \x7d` on a failed invocation and `\x7b stdout \x7d` on
success; it never rejects. -/
inductive ExecResult
  | ok (stdout : String)
  | err (message : String)
  deriving DecidableEq, Repr

/-- JavaScript truthiness of an optional string: `undefined` and `""` are
falsy. -/
def jsTruthyStr : Option String → Bool
  | none => false
  | some s => !(s == "")

/-- Reply shape of the `gateway:status` IPC handler. -/
structure StatusReply where
  running : Bool
  output : Option String := none
  error : Option String := none
  deriving DecidableEq, Repr

/-- The `gateway:status` handler:
`if (res.error) return \x7b running: false, output: res.error \x7d;`
`return \x7b running: true, output: res.stdout \x7d;` -/
def gatewayStatusHandler : ExecResult → StatusReply
  | .err m => { running := false, output := some m }
  | .ok out => { running := true, output := some out }

/-- The renderer-side `GatewayStatus` record of `GatewayClient`. -/
structure GatewayStatus where
  running : Bool
  output : Option String := none
  error : Option String := none
  deriving DecidableEq, Repr

/-- Method `GatewayClient.gatewayStatus()`: post-processing of the IPC reply:
`if (res.error) return \x7b running: false, error: res.error \x7d;`
`return \x7b running: res.running || false, output: res.output \x7d;` -/
def clientGatewayStatus (res : StatusReply) : GatewayStatus :=
  if jsTruthyStr res.error then { running := false, error := res.error }
  else { running := res.running, output := res.output }

/-- A session record as found in the CLI JSON sessions document.  Only the
`key`/`sessionKey` fields are interpreted by the normalization; the remaining
fields are carried opaquely in `extra` (the spread `\x7b ...s \x7d`). -/
structure SessRec where
  key : Option String := none
  sessionKey : Option String := none
  extra : List (String × String) := []
  deriving DecidableEq, Repr

/-- A parsed sessions document carrying a `sessions` array (the shape the
CLI emits and the only shape on which the renderer unwrap
`res.sessions?.sessions || res.sessions || []` denotes a list). -/
structure SessionsDoc where
  sessions : List SessRec
  deriving DecidableEq, Repr

/-- Reply shape of the `sessions:list` IPC handler. -/
structure SessionsReply where
  success : Bool
  sessions : Option SessionsDoc := none
  error : Option String := none
  raw : Option String := none
  deriving DecidableEq, Repr

/-- The `sessions:list` handler after `execOpenClaw` returns.  `parsed` is
the outcome of the external builtin `JSON.parse` applied to the stdout
(empty stdout parsed as an empty object), passed in as a parameter:
on exec error `\x7b success: false, error \x7d`; on parse success
`\x7b success: true, sessions \x7d`; on parse failure
`\x7b success: false, error: parseError.message, raw: res.stdout \x7d`. -/
def sessionsListHandler (execRes : ExecResult) (parsed : Except String SessionsDoc) :
    SessionsReply :=
  match execRes with
  | .err m => { success := false, error := some m }
  | .ok stdout =>
      match parsed with
      | .ok doc => { success := true, sessions := some doc }
      | .error pm => { success := false, error := some pm, raw := some stdout }

/-- Reply shape of the `agent:run` IPC handler; `result` is either the
parsed JSON document (`Sum.inl`) or, in the parse-failure fallback, the raw
stdout text (`Sum.inr`). -/
structure AgentRunReply (α : Type) where
  success : Bool
  result : Option (α ⊕ String) := none
  error : Option String := none
  deriving DecidableEq, Repr

/-- The `agent:run` handler after `execOpenClaw` returns, generic in the
type `α` of parsed JSON documents; `parsed` is the `JSON.parse` outcome:
on exec error `\x7b success: false, error \x7d`; on parse success
`\x7b success: true, result \x7d`; on parse failure
`\x7b success: true, result: res.stdout \x7d`. -/
def agentRunHandler {α : Type} (execRes : ExecResult) (parsed : Except String α) :
    AgentRunReply α :=
  match execRes with
  | .err m => { success := false, error := some m }
  | .ok stdout =>
      match parsed with
      | .ok v => { success := true, result := some (.inl v) }
      | .error _ => { success := true, result := some (.inr stdout) }

/-- The JavaScript `s.key || s.sessionKey` of `GatewayClient.listSessions`. -/
def jsOrStr (a b : Option String) : Option String :=
  if jsTruthyStr a then a else b

/-- The per-record normalization
`\x7b ...s, sessionKey: s.key || s.sessionKey, key: s.key || s.sessionKey \x7d`. -/
def normalizeSession (s : SessRec) : SessRec :=
  { s with sessionKey := jsOrStr s.key s.sessionKey, key := jsOrStr s.key s.sessionKey }

/-- Method `GatewayClient.listSessions` applied to a successfully parsed sessions
document: unwrap the `sessions` array and normalize each record. -/
def listSessionsFromDoc (doc : SessionsDoc) : List SessRec :=
  doc.sessions.map normalizeSession

/-- JS `String.prototype.startsWith(pat)` (pattern is the first argument).
The `agents:list` handler manipulates JavaScript strings; these primitives
are modelled over the character sequence (`List Char`), with
`String.data`/`String.mk` at the boundaries. -/
def jsStartsWithList : List Char → List Char → Bool
  | [], _ => true
  | _ :: _, [] => false
  | p :: ps, c :: cs => p == c && jsStartsWithList ps cs

/-- JS `String.prototype.trim()`: strip leading and trailing whitespace. -/
def jsTrimList (s : List Char) : List Char :=
  ((s.dropWhile Char.isWhitespace).reverse.dropWhile Char.isWhitespace).reverse

/-- JS `String.prototype.split(sep)` with a single-character separator. -/
def jsSplitList (sep : Char) : List Char → List (List Char)
  | [] => [[]]
  | c :: rest =>
      match jsSplitList sep rest with
      | h :: t => if c == sep then [] :: h :: t else (c :: h) :: t
      | [] => [[]]

/-- JS `String.prototype.indexOf(pat)`: position of the first occurrence. -/
def jsIndexOfList (pat : List Char) : List Char → Option ℕ
  | [] => if jsStartsWithList pat [] then some 0 else none
  | c :: rest =>
      if jsStartsWithList pat (c :: rest) then some 0
      else (jsIndexOfList pat rest).map (· + 1)

/-- JS `String.prototype.includes(pat)`. -/
def jsIncludesList (pat s : List Char) : Bool := (jsIndexOfList pat s).isSome

/-- An agent record as built by the `agents:list` handler. -/
structure JsAgent where
  id : String
  name : String
  isDefault : Bool
  workspace : String
  model : String
  deriving DecidableEq, Repr

/-- Handling of a marker line (`trimmed` starts with `"- "`):
`nameWithDefault = trimmed.substring(2).trim()`,
`isDefault = nameWithDefault.includes('(default)')`,
`name = nameWithDefault.replace(/\s*\(default\).*$/, '').trim()`.
The regex removal equals taking the prefix before the first occurrence of
`"(default)"` and trimming: the leftmost match of the regex starts at that
occurrence minus the whitespace run before it and extends to the end of the
string, and the final `.trim()` removes exactly the whitespace the `\s*`
would have consumed. -/
def mkAgentFromMarker (trimmed : List Char) : JsAgent :=
  let nameWithDefault := jsTrimList (trimmed.drop 2)
  let isDef := jsIncludesList "(default)".data nameWithDefault
  let name := jsTrimList
    (match jsIndexOfList "(default)".data nameWithDefault with
     | some i => nameWithDefault.take i
     | none => nameWithDefault)
  { id := ⟨name⟩, name := ⟨name⟩, isDefault := isDef, workspace := "", model := "" }

/-- The line loop of the `agents:list` handler: a marker line pushes the
current record and starts a new one; `Workspace:`/`Model:` lines update the
current record when one exists; other lines are ignored; at end of input the
final record is pushed. -/
def parseAgentLines : List (List Char) → Option JsAgent → List JsAgent
  | [], cur =>
      match cur with
      | some a => [a]
      | none => []
  | line :: rest, cur =>
      let trimmed := jsTrimList line
      if jsStartsWithList "- ".data trimmed then
        match cur with
        | some a => a :: parseAgentLines rest (some (mkAgentFromMarker trimmed))
        | none => parseAgentLines rest (some (mkAgentFromMarker trimmed))
      else if jsStartsWithList "Workspace:".data trimmed then
        match cur with
        | some a =>
            parseAgentLines rest
              (some { a with workspace := ⟨jsTrimList (trimmed.drop "Workspace:".data.length)⟩ })
        | none => parseAgentLines rest none
      else if jsStartsWithList "Model:".data trimmed then
        match cur with
        | some a =>
            parseAgentLines rest
              (some { a with model := ⟨jsTrimList (trimmed.drop "Model:".data.length)⟩ })
        | none => parseAgentLines rest none
      else parseAgentLines rest cur

/-- The `agents:list` parser on the raw stdout text:
`(res.stdout || '').split('\n')`, then the line loop, then the final push. -/
def parseAgentsList (stdout : String) : List JsAgent :=
  parseAgentLines (jsSplitList '\n' stdout.data) none

/-- One entry of the persisted parent/children mapping
(SessionContext.tsx). -/
structure HierEntry where
  parentId : Option String := none
  childIds : List String := []
  label : Option String := none
  deriving DecidableEq, Repr

/-- The string-keyed mapping object. -/
def SessionMapping := String → Option HierEntry

/-- Setting one key of the mapping object. -/
def mupdate (m : SessionMapping) (k : String) (e : HierEntry) : SessionMapping :=
  fun x => if x = k then some e else m x

/-- First block of `addSpawn`: `if (!updated[parentId]) updated[parentId] =
\x7b childIds: [] \x7d`. -/
def ensureParent (m : SessionMapping) (parentId : String) : SessionMapping :=
  match m parentId with
  | none => mupdate m parentId { parentId := none, childIds := [], label := none }
  | some _ => m

/-- Second block of `addSpawn`: create the child entry (with `parentId` and
`label`) when absent, otherwise re-parent it and overwrite its label when
the given label is truthy. -/
def upsertChild (m : SessionMapping) (parentId childId : String) (label : Option String) :
    SessionMapping :=
  match m childId with
  | none => mupdate m childId { parentId := some parentId, childIds := [], label := label }
  | some e =>
      mupdate m childId
        { parentId := some parentId, childIds := e.childIds,
          label := if jsTruthyStr label then label else e.label }

/-- Third block of `addSpawn`:
`if (!updated[parentId].childIds.includes(childId))
updated[parentId].childIds.push(childId)`. -/
def appendChild (m : SessionMapping) (parentId childId : String) : SessionMapping :=
  match m parentId with
  | some pe =>
      if childId ∈ pe.childIds then m
      else mupdate m parentId { pe with childIds := pe.childIds ++ [childId] }
  | none => m

/-- Operation `addSpawn(parentId, childId, label?)`: initialize the parent entry if
absent, initialize or re-parent the child entry (attaching the label when
truthy), then append the child to the parent list when absent. -/
def addSpawn (m : SessionMapping) (parentId childId : String) (label : Option String) :
    SessionMapping :=
  appendChild (upsertChild (ensureParent m parentId) parentId childId label) parentId childId

/-- Operation `getChildren(sessionId)`: `mapping[sessionId]?.childIds || []`. -/
def getChildren (m : SessionMapping) (sessionId : String) : List String :=
  match m sessionId with
  | some e => e.childIds
  | none => []

/-- Operation `getParent(sessionId)`: `mapping[sessionId]?.parentId`. -/
def getParent (m : SessionMapping) (sessionId : String) : Option String :=
  (m sessionId).bind fun e => e.parentId

/-- The empty mapping. -/
def emptyMapping : SessionMapping := fun _ => none

/-- The states the store can be in: the empty mapping (fresh, after
`clearMapping()`, or after a failed load) and anything produced from such a
state by `addSpawn`. -/
inductive ReachableMapping : SessionMapping → Prop
  | empty : ReachableMapping emptyMapping
  | addSpawn {m : SessionMapping} (p c : String) (label : Option String) :
      ReachableMapping m → ReachableMapping (addSpawn m p c label)

/-- For `n ≤ 4` the pre-jitter delay is below the cap, so `min` picks the
exponential term. -/
theorem backoff_min_eq (n : ℕ) (hn : n ≤ 4) :
    min ((1000 : ℚ) * 2 ^ n) 16000 = 1000 * 2 ^ n := by
  apply min_eq_left
  have h2 : (2 : ℚ) ^ n ≤ 2 ^ 4 :=
    pow_le_pow_right₀ (by norm_num) hn
  nlinarith

/-- C2 (amended).  For every attempt count `n ≤ 4` and random draw
`r ∈ [0, 1)` the computed backoff delay lies within
`[0.75 × 1000×2^n, 1.25 × 1000×2^n]` milliseconds.  The 16000ms cap applies
to the pre-jitter delay only (for `n ≤ 4` it never binds strictly), so the
returned delay is *not* bounded by 16000ms: at `n = 4` it ranges up to
20000ms (see the counterexample `backoff_cap_exceeded`). -/
theorem getBackoffDelay_bounds (n : ℕ) (r : ℚ) (hn : n ≤ 4) (h0 : 0 ≤ r) (h1 : r < 1) :
    (750 * 2 ^ n : ℤ) ≤ getBackoffDelay n r ∧ getBackoffDelay n r ≤ 1250 * 2 ^ n := by
  have hpow : (0 : ℚ) < 2 ^ n := by positivity
  simp only [getBackoffDelay, jsRound, backoff_min_eq n hn]
  constructor
  · apply Int.le_floor.mpr
    push_cast
    nlinarith
  · have hlt : ⌊(1000 : ℚ) * 2 ^ n + 1000 * 2 ^ n * (1 / 4) * (r * 2 - 1) + 1 / 2⌋
        < (1250 * 2 ^ n : ℤ) + 1 := by
      apply Int.floor_lt.mpr
      push_cast
      nlinarith
    omega

/-- Witness for `getBackoffDelay_bounds` at attempt 0 and random draw 0. -/
theorem getBackoffDelay_bounds_witness :
    (0 : ℕ) ≤ 4 ∧ (0 : ℚ) ≤ 0 ∧ (0 : ℚ) < 1 ∧
    ((750 * 2 ^ 0 : ℤ) ≤ getBackoffDelay 0 0 ∧ getBackoffDelay 0 0 ≤ 1250 * 2 ^ 0) :=
  ⟨by norm_num, by norm_num, by norm_num,
    getBackoffDelay_bounds 0 0 (by norm_num) (by norm_num) (by norm_num)⟩

/-- C2 counterexample: at attempt 4 with random draw `0.99 ∈ [0, 1)` the
computed delay is `19920 ms > 16000 ms` — the cap is applied before the
jitter, so the returned delay is not capped at 16000ms as claimed. -/
theorem backoff_cap_exceeded :
    ((0 : ℚ) ≤ 99/100 ∧ (99/100 : ℚ) < 1) ∧
    getBackoffDelay 4 (99/100) = 19920 ∧ 16000 < getBackoffDelay 4 (99/100) := by
  refine ⟨by norm_num, ?_, ?_⟩ <;> norm_num [getBackoffDelay, jsRound]

/-- C1.  After 5 consecutive failed reconnect attempts the state becomes
`disconnected`, the last emitted event is the terminal error, and no timer,
interval or pending probe remains, so no automatic action (timer firing,
heartbeat tick, probe resolution) is enabled and `disconnect()` is a no-op:
only an explicit `connect()`/`reconnect()` call can make progress.
Additionally, in any state whose attempt counter has reached the maximum,
`attemptReconnect` settles into `disconnected`, emits the terminal error and
schedules nothing (the timer fields are unchanged). -/
theorem reconnect_exhaustion_terminal :
    (allEnabled Client.init exhaustActs = true ∧
      (run Client.init exhaustActs).1.state = ConnState.disconnected ∧
      (run Client.init exhaustActs).2.getLast? =
        some (GEvent.error "Max reconnect attempts (5) reached") ∧
      (run Client.init exhaustActs).1.reconnectLive = 0 ∧
      (run Client.init exhaustActs).1.reconnectField = none ∧
      (run Client.init exhaustActs).1.heartbeatLive = 0 ∧
      (run Client.init exhaustActs).1.pendingConnects = 0 ∧
      (run Client.init exhaustActs).1.pendingHeartbeatProbes = 0 ∧
      step (run Client.init exhaustActs).1 Act.disconnect =
        ((run Client.init exhaustActs).1, []) ∧
      ∀ (onRef ipc : Bool) (rand : ℚ) (err : Option String),
        enabled (run Client.init exhaustActs).1 (.timerFire onRef ipc rand) = false ∧
        enabled (run Client.init exhaustActs).1 .heartbeatTick = false ∧
        enabled (run Client.init exhaustActs).1 (.heartbeatResolved err rand) = false ∧
        enabled (run Client.init exhaustActs).1 (.connectResolved err rand) = false) ∧
    ∀ (c : Client) (rand : ℚ),
      c.isManualDisconnect = false →
      c.maxReconnectAttempts ≤ c.reconnectAttempts →
      attemptReconnect c rand =
        ({ c with state := ConnState.disconnected },
         [GEvent.error ("Max reconnect attempts (" ++
            toString c.maxReconnectAttempts ++ ") reached")]) := by
  constructor
  · refine ⟨by decide, by decide, by decide, by decide, by decide, by decide,
      by decide, by decide, by decide, ?_⟩
    intro onRef ipc rand err
    have hf : (run Client.init exhaustActs).1.reconnectField = none := by decide
    have hl : (run Client.init exhaustActs).1.reconnectLive = 0 := by decide
    have hh : (run Client.init exhaustActs).1.heartbeatLive = 0 := by decide
    have hp : (run Client.init exhaustActs).1.pendingConnects = 0 := by decide
    have hq : (run Client.init exhaustActs).1.pendingHeartbeatProbes = 0 := by decide
    refine ⟨?_, ?_, ?_, ?_⟩
    · cases onRef <;> simp [enabled, unrefLive, hf, hl]
    · simp [enabled, hh]
    · simp [enabled, hq]
    · simp [enabled, hp]
  · intro c rand hman hmax
    simp [attemptReconnect, hman, hmax]

/-- Witness for the hypotheses of `reconnect_exhaustion_terminal`: the
general exhaustion branch applied to the concrete state reached by the
scenario. -/
theorem reconnect_exhaustion_terminal_witness :
    (run Client.init exhaustActs).1.isManualDisconnect = false ∧
    (run Client.init exhaustActs).1.maxReconnectAttempts ≤
      (run Client.init exhaustActs).1.reconnectAttempts ∧
    attemptReconnect (run Client.init exhaustActs).1 0 =
      ({ (run Client.init exhaustActs).1 with state := ConnState.disconnected },
       [GEvent.error ("Max reconnect attempts (" ++
          toString (run Client.init exhaustActs).1.maxReconnectAttempts ++ ") reached")]) :=
  ⟨by decide, by decide,
    reconnect_exhaustion_terminal.2 (run Client.init exhaustActs).1 0
      (by decide) (by decide)⟩

/-- C3.  A failing heartbeat probe stops the heartbeat and invokes the
reconnect procedure: as long as the attempt counter is not exhausted the
client ends in `reconnecting` with a freshly scheduled reconnect timer (not
in terminal `disconnected`); with the counter exhausted it ends in
`disconnected` with no new timer. -/
theorem heartbeat_failure_reconnects (c : Client) (m : String) (rand : ℚ)
    (_hst : c.state = ConnState.connected)
    (hhb : c.heartbeatField = true)
    (hman : c.isManualDisconnect = false) :
    ((step c (.heartbeatResolved (some m) rand)).1.heartbeatField = false ∧
     (step c (.heartbeatResolved (some m) rand)).1.heartbeatLive = c.heartbeatLive - 1) ∧
    (c.reconnectAttempts < c.maxReconnectAttempts →
      (step c (.heartbeatResolved (some m) rand)).1.state = ConnState.reconnecting ∧
      (step c (.heartbeatResolved (some m) rand)).1.reconnectField = some true ∧
      (step c (.heartbeatResolved (some m) rand)).1.reconnectLive = c.reconnectLive + 1) ∧
    (c.maxReconnectAttempts ≤ c.reconnectAttempts →
      (step c (.heartbeatResolved (some m) rand)).1.state = ConnState.disconnected ∧
      (step c (.heartbeatResolved (some m) rand)).1.reconnectLive = c.reconnectLive) := by
  refine ⟨?_, ?_, ?_⟩
  · simp only [step, heartbeatResolve, stopHeartbeat, attemptReconnect, hhb, hman]
    split_ifs <;> simp
  · intro hlt
    have hnot : ¬ c.maxReconnectAttempts ≤ c.reconnectAttempts := by omega
    simp [step, heartbeatResolve, stopHeartbeat, attemptReconnect, hhb, hman, hnot]
  · intro hge
    simp [step, heartbeatResolve, stopHeartbeat, attemptReconnect, hhb, hman, hge]

/-- Witness for `heartbeat_failure_reconnects` at a concrete connected
client whose probe fails with "Gateway stopped". -/
theorem heartbeat_failure_reconnects_witness :
    (connectedClient.state = ConnState.connected ∧
     connectedClient.heartbeatField = true ∧
     connectedClient.isManualDisconnect = false) ∧
    ((step connectedClient (.heartbeatResolved (some "Gateway stopped") 0)).1.heartbeatField
        = false ∧
     (step connectedClient (.heartbeatResolved (some "Gateway stopped") 0)).1.heartbeatLive
        = connectedClient.heartbeatLive - 1) ∧
    (connectedClient.reconnectAttempts < connectedClient.maxReconnectAttempts →
      (step connectedClient (.heartbeatResolved (some "Gateway stopped") 0)).1.state
          = ConnState.reconnecting ∧
      (step connectedClient (.heartbeatResolved (some "Gateway stopped") 0)).1.reconnectField
          = some true ∧
      (step connectedClient (.heartbeatResolved (some "Gateway stopped") 0)).1.reconnectLive
          = connectedClient.reconnectLive + 1) ∧
    (connectedClient.maxReconnectAttempts ≤ connectedClient.reconnectAttempts →
      (step connectedClient (.heartbeatResolved (some "Gateway stopped") 0)).1.state
          = ConnState.disconnected ∧
      (step connectedClient (.heartbeatResolved (some "Gateway stopped") 0)).1.reconnectLive
          = connectedClient.reconnectLive) :=
  ⟨⟨by decide, by decide, by decide⟩,
    (heartbeat_failure_reconnects connectedClient "Gateway stopped" 0
      (by decide) (by decide) (by decide)).1,
    (heartbeat_failure_reconnects connectedClient "Gateway stopped" 0
      (by decide) (by decide) (by decide)).2.1,
    (heartbeat_failure_reconnects connectedClient "Gateway stopped" 0
      (by decide) (by decide) (by decide)).2.2⟩

/-- A single enabled non-explicit action preserves `ManualQuiet` and cannot
emit `connecting`. -/
theorem manualQuiet_stepE (c : Client) (a : Act)
    (hJ : ManualQuiet c) (ha : explicitConnect a = false) :
    ManualQuiet (stepE c a).1 ∧ GEvent.connecting ∉ (stepE c a).2 := by
  obtain ⟨h1, h2, h3⟩ := hJ
  cases a with
  | connectCall ipc rand => simp [explicitConnect] at ha
  | reconnectCall ipc rand => simp [explicitConnect] at ha
  | connectResolved err rand =>
      by_cases hen : enabled c (.connectResolved err rand) = true
      · cases err with
        | none =>
            simp [stepE, hen, step, connectResolve, startHeartbeat, stopHeartbeat,
              ManualQuiet, h1, h2, h3]
            split_ifs <;> simp_all
        | some m =>
            simp [stepE, hen, step, connectResolve, h1, ManualQuiet, h2, h3]
      · simp [stepE, hen, ManualQuiet, h1, h2, h3]
  | timerFire onRef ipc rand =>
      have hen : enabled c (.timerFire onRef ipc rand) = false := by
        cases onRef <;> simp [enabled, unrefLive, h2, h3]
      simp [stepE, hen, ManualQuiet, h1, h2, h3]
  | heartbeatTick =>
      by_cases hen : enabled c .heartbeatTick = true
      · simp [stepE, hen, step, heartbeatFire, ManualQuiet, h1, h2, h3]
      · simp [stepE, hen, ManualQuiet, h1, h2, h3]
  | heartbeatResolved err rand =>
      by_cases hen : enabled c (.heartbeatResolved err rand) = true
      · cases err with
        | none => simp [stepE, hen, step, heartbeatResolve, ManualQuiet, h1, h2, h3]
        | some m =>
            simp [stepE, hen, step, heartbeatResolve, stopHeartbeat, attemptReconnect,
              ManualQuiet, h1, h2, h3]
            split_ifs <;> simp_all
      · simp [stepE, hen, ManualQuiet, h1, h2, h3]
  | disconnect =>
      by_cases hst : c.state = ConnState.disconnected
      · simp [stepE, enabled, step, disconnectCall, hst, ManualQuiet, h1, h2, h3]
      · simp [stepE, enabled, step, disconnectCall, hst, ManualQuiet, h1, h2, h3,
          stopHeartbeat, clearReconnectTimer]
        split_ifs <;> simp_all <;> cases hf : c.reconnectField <;> simp_all

/-- No sequence of non-explicit actions can emit `connecting` from a
`ManualQuiet` state. -/
theorem manualQuiet_run (acts : List Act) :
    ∀ c : Client, ManualQuiet c → (∀ a ∈ acts, explicitConnect a = false) →
      GEvent.connecting ∉ (run c acts).2 := by
  induction acts with
  | nil => intro c _ _; simp [run]
  | cons a rest ih =>
      intro c hJ hacts
      have ha : explicitConnect a = false := hacts a (by simp)
      obtain ⟨hJ', hev⟩ := manualQuiet_stepE c a hJ ha
      simp only [run, List.mem_append]
      push_neg
      exact ⟨hev, ih (stepE c a).1 hJ' fun b hb => hacts b (by simp [hb])⟩

/-- C4.  `disconnect()` in state `reconnecting` with the (single) pending
reconnect timer cancels that timer, sets the manual flag, transitions through
`disconnecting` to `disconnected`, and afterwards no sequence of non-explicit
actions (timer firings, probe resolutions, heartbeat ticks, repeated
disconnects) can ever emit a `connecting` event. -/
theorem disconnect_while_reconnecting (c : Client)
    (hst : c.state = ConnState.reconnecting)
    (hfield : c.reconnectField = some true)
    (hlive : c.reconnectLive = 1) :
    (step c .disconnect).2 = [GEvent.disconnecting, GEvent.disconnected] ∧
    (step c .disconnect).1.reconnectField = none ∧
    (step c .disconnect).1.reconnectLive = 0 ∧
    (step c .disconnect).1.isManualDisconnect = true ∧
    (step c .disconnect).1.state = ConnState.disconnected ∧
    ∀ acts : List Act, (∀ a ∈ acts, explicitConnect a = false) →
      GEvent.connecting ∉ (run (step c .disconnect).1 acts).2 := by
  have hne : ¬ c.state = ConnState.disconnected := by rw [hst]; intro h; cases h
  have hstep : ∀ P : Client → Prop,
      P { clearReconnectTimer (stopHeartbeat { c with isManualDisconnect := true })
          with state := ConnState.disconnected } →
      P (step c .disconnect).1 := by
    intro P hP
    simpa [step, disconnectCall, hne] using hP
  refine ⟨by simp [step, disconnectCall, hne], ?_, ?_, ?_, ?_, ?_⟩
  · apply hstep (fun x => x.reconnectField = none)
    simp [clearReconnectTimer, stopHeartbeat, hfield]
    split_ifs <;> simp
  · apply hstep (fun x => x.reconnectLive = 0)
    simp [clearReconnectTimer, stopHeartbeat, hfield, hlive]
    split_ifs <;> simp
  · apply hstep (fun x => x.isManualDisconnect = true)
    simp [clearReconnectTimer, stopHeartbeat, hfield]
    split_ifs <;> simp
  · apply hstep (fun x => x.state = ConnState.disconnected)
    simp
  · intro acts hacts
    apply manualQuiet_run acts _ _ hacts
    refine ⟨?_, ?_, ?_⟩
    · apply hstep (fun x => x.isManualDisconnect = true)
      simp [clearReconnectTimer, stopHeartbeat, hfield]
      split_ifs <;> simp
    · apply hstep (fun x => x.reconnectLive = 0)
      simp [clearReconnectTimer, stopHeartbeat, hfield, hlive]
      split_ifs <;> simp
    · apply hstep (fun x => x.reconnectField ≠ some true)
      simp [clearReconnectTimer, stopHeartbeat, hfield]
      split_ifs <;> simp

/-- Witness for `disconnect_while_reconnecting` at a concrete mid-reconnect
client. -/
theorem disconnect_while_reconnecting_witness :
    (reconnectingClient.state = ConnState.reconnecting ∧
     reconnectingClient.reconnectField = some true ∧
     reconnectingClient.reconnectLive = 1) ∧
    (step reconnectingClient .disconnect).2 =
      [GEvent.disconnecting, GEvent.disconnected] ∧
    (step reconnectingClient .disconnect).1.reconnectField = none ∧
    (step reconnectingClient .disconnect).1.reconnectLive = 0 ∧
    (step reconnectingClient .disconnect).1.isManualDisconnect = true ∧
    (step reconnectingClient .disconnect).1.state = ConnState.disconnected ∧
    ∀ acts : List Act, (∀ a ∈ acts, explicitConnect a = false) →
      GEvent.connecting ∉ (run (step reconnectingClient .disconnect).1 acts).2 :=
  ⟨⟨by decide, by decide, by decide⟩,
    disconnect_while_reconnecting reconnectingClient (by decide) (by decide) (by decide)⟩

/-- Clearing always nulls the field: `clearReconnectTimer` always nulls the field. -/
theorem clearReconnectTimer_reconnectField (c : Client) :
    (clearReconnectTimer c).reconnectField = none := by
  rcases hf : c.reconnectField with _ | l <;> simp [clearReconnectTimer, hf]

/-- Frame: `clearReconnectTimer` does not touch the heartbeat field. -/
theorem clearReconnectTimer_hbField (c : Client) :
    (clearReconnectTimer c).heartbeatField = c.heartbeatField := by
  rcases hf : c.reconnectField with _ | l <;> simp [clearReconnectTimer, hf]

/-- Frame: `clearReconnectTimer` does not touch the heartbeat live count. -/
theorem clearReconnectTimer_hbLive (c : Client) :
    (clearReconnectTimer c).heartbeatLive = c.heartbeatLive := by
  rcases hf : c.reconnectField with _ | l <;> simp [clearReconnectTimer, hf]

/-- Frame: `attemptReconnect` does not touch the heartbeat field. -/
theorem attemptReconnect_hbField (c : Client) (rand : ℚ) :
    (attemptReconnect c rand).1.heartbeatField = c.heartbeatField := by
  simp only [attemptReconnect]
  split_ifs <;> simp

/-- Frame: `attemptReconnect` does not touch the heartbeat live count. -/
theorem attemptReconnect_hbLive (c : Client) (rand : ℚ) :
    (attemptReconnect c rand).1.heartbeatLive = c.heartbeatLive := by
  simp only [attemptReconnect]
  split_ifs <;> simp

/-- The synchronous part of `connect()` does not touch the heartbeat field. -/
theorem connectBegin_hbField (c : Client) (ipc : Bool) (rand : ℚ) :
    (connectBegin c ipc rand).1.heartbeatField = c.heartbeatField := by
  simp only [connectBegin]
  split_ifs <;>
    simp [attemptReconnect_hbField, clearReconnectTimer_hbField]

/-- The synchronous part of `connect()` does not touch the heartbeat live
count. -/
theorem connectBegin_hbLive (c : Client) (ipc : Bool) (rand : ℚ) :
    (connectBegin c ipc rand).1.heartbeatLive = c.heartbeatLive := by
  simp only [connectBegin]
  split_ifs <;>
    simp [attemptReconnect_hbLive, clearReconnectTimer_hbLive]

/-- Invariance: `stopHeartbeat` preserves the heartbeat invariant. -/
theorem hbInv_stopHeartbeat {c : Client} (h : HbInv c) : HbInv (stopHeartbeat c) := by
  unfold HbInv stopHeartbeat at *
  split_ifs with hf <;> simp_all

/-- Invariance: `startHeartbeat` preserves the heartbeat invariant and leaves exactly
one live interval. -/
theorem hbInv_startHeartbeat {c : Client} (h : HbInv c) :
    HbInv (startHeartbeat c) ∧ (startHeartbeat c).heartbeatLive = 1 := by
  unfold HbInv startHeartbeat stopHeartbeat at *
  split_ifs at * <;> simp_all

/-- Every step preserves the heartbeat invariant. -/
theorem hbInv_step (c : Client) (a : Act) (h : HbInv c) : HbInv (step c a).1 := by
  unfold HbInv at *
  cases a with
  | connectCall ipc rand =>
      simp [step, connectBegin_hbField, connectBegin_hbLive, h]
  | reconnectCall ipc rand =>
      simp [step, reconnectBegin, connectBegin_hbField, connectBegin_hbLive, h]
  | timerFire onRef ipc rand =>
      cases onRef <;>
        simp [step, reconnectTimerFire, connectBegin_hbField, connectBegin_hbLive, h]
  | heartbeatTick =>
      simp [step, heartbeatFire, h]
  | heartbeatResolved err rand =>
      cases err with
      | none => simp [step, heartbeatResolve, h]
      | some m =>
          simp only [step, heartbeatResolve, attemptReconnect_hbField, attemptReconnect_hbLive]
          unfold stopHeartbeat
          split_ifs <;> simp_all
  | connectResolved err rand =>
      cases err with
      | none =>
          simp only [step, connectResolve, startHeartbeat]
          unfold stopHeartbeat
          split_ifs <;> simp_all
      | some m =>
          simp only [step, connectResolve]
          split_ifs <;>
            simp_all [attemptReconnect_hbField, attemptReconnect_hbLive]
  | disconnect =>
      by_cases hst : c.state = ConnState.disconnected
      · simpa [step, disconnectCall, hst] using h
      · simp only [step, disconnectCall, hst, if_false,
          clearReconnectTimer_hbField, clearReconnectTimer_hbLive]
        unfold stopHeartbeat
        split_ifs <;> simp_all

/-- The heartbeat invariant holds in every reachable state. -/
theorem hbInv_reachable {c : Client} (h : Reachable c) : HbInv c := by
  induction h with
  | init => unfold HbInv; simp [Client.init]
  | step a _ _ ih => exact hbInv_step _ a ih

/-- Running a sequence of enabled actions stays within the reachable set. -/
theorem reachable_run (acts : List Act) :
    ∀ c : Client, Reachable c → allEnabled c acts = true → Reachable (run c acts).1 := by
  induction acts with
  | nil => intro c hc _; simpa [run] using hc
  | cons a rest ih =>
      intro c hc hall
      simp only [allEnabled, Bool.and_eq_true] at hall
      have hstep : stepE c a = step c a := by simp [stepE, hall.1]
      simp only [run, hstep]
      exact ih (step c a).1 (Reachable.step a hc hall.1) hall.2

/-- C5 counterexample: a reachable state carries two live reconnect timers.
All six actions of `leakActs` are enabled in sequence from the fresh client,
and the resulting (hence reachable) state has `reconnectLive = 2`. -/
theorem two_live_reconnect_timers :
    allEnabled Client.init leakActs = true ∧
    Reachable (run Client.init leakActs).1 ∧
    (run Client.init leakActs).1.reconnectLive = 2 := by
  refine ⟨by decide, ?_, by decide⟩
  exact reachable_run leakActs Client.init Reachable.init (by decide)

/-- C5 (amended).  At most one heartbeat interval is live in every reachable
state, `startHeartbeat` always cancels a prior heartbeat (leaving exactly one
live interval), and the timer-clearing prologue of `connect()`
(`clearReconnectTimer`) nulls the field and kills the referenced live
timeout, so the success path of `connect()` leaves no reconnect timer.  (The
unrestricted at-most-one-reconnect-timer part of the original claim is
refuted by `two_live_reconnect_timers`.) -/
theorem timer_uniqueness_amended :
    (∀ c : Client, Reachable c → c.heartbeatLive ≤ 1) ∧
    (∀ c : Client, Reachable c → (startHeartbeat c).heartbeatLive = 1) ∧
    (∀ c : Client,
      (clearReconnectTimer c).reconnectField = none ∧
      (c.reconnectField = some true →
        (clearReconnectTimer c).reconnectLive + 1 = c.reconnectLive ∨ c.reconnectLive = 0)) ∧
    (∀ (c : Client) (rand : ℚ),
      (connectBegin c true rand).1.reconnectField = none ∧
      (connectBegin c true rand).1.reconnectLive = (clearReconnectTimer c).reconnectLive) := by
  refine ⟨?_, ?_, ?_, ?_⟩
  · intro c hc
    have h := hbInv_reachable hc
    unfold HbInv at h
    split_ifs at h <;> omega
  · intro c hc
    exact (hbInv_startHeartbeat (hbInv_reachable hc)).2
  · intro c
    refine ⟨?_, ?_⟩
    · rcases hf : c.reconnectField with _ | l <;> simp [clearReconnectTimer, hf]
    · intro hf
      simp [clearReconnectTimer, hf]
      omega
  · intro c rand
    simp [connectBegin, clearReconnectTimer_reconnectField]

/-- Witness for `timer_uniqueness_amended`: the reachable-state hypotheses
discharged at the fresh client, the field hypothesis at a client holding a
live reconnect timer. -/
theorem timer_uniqueness_amended_witness :
    Client.init.heartbeatLive ≤ 1 ∧
    (startHeartbeat Client.init).heartbeatLive = 1 ∧
    ((clearReconnectTimer timedClient).reconnectLive + 1 =
        timedClient.reconnectLive ∨ timedClient.reconnectLive = 0) :=
  ⟨timer_uniqueness_amended.1 Client.init Reachable.init,
   timer_uniqueness_amended.2.1 Client.init Reachable.init,
   (timer_uniqueness_amended.2.2.1 timedClient).2 (by decide)⟩

/-- C6 counterexample: a CLI output that fails to parse as JSON is returned
by the `agent:run` handler as a *success* (`success = true`) carrying the raw
stdout as `result`, with no error — refuting "a JSON parse failure is never
silently swallowed into a success result". -/
theorem agent_run_parse_failure_success :
    (agentRunHandler (ExecResult.ok "not json")
        (Except.error "Unexpected token") : AgentRunReply Unit).success = true ∧
    (agentRunHandler (ExecResult.ok "not json")
        (Except.error "Unexpected token") : AgentRunReply Unit).result =
      some (Sum.inr "not json") ∧
    (agentRunHandler (ExecResult.ok "not json")
        (Except.error "Unexpected token") : AgentRunReply Unit).error = none := by
  decide

/-- C6 (amended).  The `sessions:list` handler surfaces a parse failure as a
structured error carrying the parse message and the raw stdout
(`success = false`); the `agent:run` handler instead falls back to a success
result whose `result` field is the raw stdout text. -/
theorem parse_failure_surfacing :
    (∀ stdout m : String,
      sessionsListHandler (.ok stdout) (.error m) =
        { success := false, sessions := none, error := some m, raw := some stdout }) ∧
    (∀ (α : Type) (stdout m : String),
      @agentRunHandler α (.ok stdout) (.error m) =
        { success := true, result := some (.inr stdout), error := none }) :=
  ⟨fun _ _ => rfl, fun _ _ _ => rfl⟩

/-- Auxiliary for C7: the line loop yields one record per marker line, plus
one for a carried-in current record (flushed at end of input). -/
theorem parseAgentLines_length (lines : List (List Char)) :
    ∀ cur : Option JsAgent,
      (parseAgentLines lines cur).length =
        lines.countP (fun l => jsStartsWithList "- ".data (jsTrimList l)) +
          (match cur with | some _ => 1 | none => 0) := by
  induction lines with
  | nil => intro cur; cases cur <;> simp [parseAgentLines]
  | cons line rest ih =>
      intro cur
      simp only [parseAgentLines, List.countP_cons]
      by_cases h1 : jsStartsWithList "- ".data (jsTrimList line) = true
      · cases cur <;> simp [h1, ih]
      · by_cases h2 : jsStartsWithList "Workspace:".data (jsTrimList line) = true
        · cases cur <;> simp [h1, h2, ih]
        · by_cases h3 : jsStartsWithList "Model:".data (jsTrimList line) = true
          · cases cur <;> simp [h1, h2, h3, ih]
          · cases cur <;> simp [h1, h2, h3, ih]

/-- C7.  The listing parser yields exactly the two expected records on the
specified input (the second marked default, the final record flushed at end
of input); in general the output has exactly one record per marker line, so
the final record is never dropped. -/
theorem listing_parser_flush :
    parseAgentsList
        "- main\n  Workspace: /w\n  Model: gpt-x\n- head (default)\n  Workspace: /w2\n  Model: gpt-y\n" =
      [{ id := "main", name := "main", isDefault := false, workspace := "/w", model := "gpt-x" },
       { id := "head", name := "head", isDefault := true, workspace := "/w2", model := "gpt-y" }] ∧
    ∀ stdout : String,
      (parseAgentsList stdout).length =
        (jsSplitList '\n' stdout.data).countP
          (fun l => jsStartsWithList "- ".data (jsTrimList l)) := by
  constructor
  · decide
  · intro stdout
    simpa using parseAgentLines_length (jsSplitList '\n' stdout.data) none

/-- C8 counterexample: a record carrying `key` (as the empty string) and no
`sessionKey` normalizes to a record with *neither* field defined — refuting
"for every session record carrying a `key` or `sessionKey` field,
normalization makes both fields present". -/
theorem session_key_empty_counterexample :
    ({ key := some "", sessionKey := none, extra := [] } : SessRec).key.isSome = true ∧
    (normalizeSession { key := some "", sessionKey := none, extra := [] }).key = none ∧
    (normalizeSession { key := some "", sessionKey := none, extra := [] }).sessionKey = none := by
  decide

/-- C8 (amended).  The concrete document with one session keyed
`"agent:main:1"` normalizes to one record with `key = sessionKey =
"agent:main:1"`; in general the two fields are always made equal, a truthy
(non-empty) `key` is copied to both, and with a falsy `key` both fall back
to the carried `sessionKey`. -/
theorem session_key_normalization :
    listSessionsFromDoc { sessions := [{ key := some "agent:main:1" }] } =
      [{ key := some "agent:main:1", sessionKey := some "agent:main:1" }] ∧
    (∀ s : SessRec, (normalizeSession s).key = (normalizeSession s).sessionKey) ∧
    (∀ s : SessRec, jsTruthyStr s.key = true →
      (normalizeSession s).key = s.key ∧ (normalizeSession s).sessionKey = s.key) ∧
    (∀ s : SessRec, jsTruthyStr s.key = false → s.sessionKey.isSome = true →
      (normalizeSession s).key = s.sessionKey ∧
        (normalizeSession s).sessionKey = s.sessionKey) := by
  refine ⟨by decide, ?_, ?_, ?_⟩
  · intro s; simp [normalizeSession]
  · intro s h; simp [normalizeSession, jsOrStr, h]
  · intro s h _; simp [normalizeSession, jsOrStr, h]

/-- Witness for `session_key_normalization` at the concrete records with a
truthy `key` and with a falsy `key` plus a `sessionKey`. -/
theorem session_key_normalization_witness :
    (jsTruthyStr ({ key := some "agent:main:1" } : SessRec).key = true ∧
      (normalizeSession { key := some "agent:main:1" }).key =
        ({ key := some "agent:main:1" } : SessRec).key) ∧
    (jsTruthyStr ({ sessionKey := some "s" } : SessRec).key = false ∧
      (normalizeSession { sessionKey := some "s" }).key =
        ({ sessionKey := some "s" } : SessRec).sessionKey) :=
  ⟨⟨by decide,
    (session_key_normalization.2.2.1 { key := some "agent:main:1" } (by decide)).1⟩,
   ⟨by decide,
    (session_key_normalization.2.2.2 { sessionKey := some "s" } (by decide) (by decide)).1⟩⟩

/-- C10.  The `gateway:status` handler reports `running = true` exactly when
the subprocess invocation succeeds (independently of the stdout text), never
sets the `error` field (placing the failure message in `output` instead), and
consequently the `res.error` branch of `GatewayClient.gatewayStatus` is not
taken for any reply this handler can produce. -/
theorem gateway_status_running_iff_exec (r : ExecResult) :
    (gatewayStatusHandler r).running = (match r with | .ok _ => true | .err _ => false) ∧
    (gatewayStatusHandler r).error = none ∧
    (match r with
     | .ok out => (gatewayStatusHandler r).output = some out
     | .err m => (gatewayStatusHandler r).output = some m) ∧
    clientGatewayStatus (gatewayStatusHandler r) =
      { running := (match r with | .ok _ => true | .err _ => false),
        output := (gatewayStatusHandler r).output, error := none } := by
  cases r <;> simp [gatewayStatusHandler, clientGatewayStatus, jsTruthyStr]

/-- Reading back the key just set. -/
theorem mupdate_same (m : SessionMapping) (k : String) (e : HierEntry) :
    mupdate m k e k = some e := by simp [mupdate]

/-- Other keys are unaffected by an update. -/
theorem mupdate_other (m : SessionMapping) (k : String) (e : HierEntry) (x : String)
    (h : x ≠ k) : mupdate m k e x = m x := by simp [mupdate, h]

/-- Updating a key with the value it already holds is the identity. -/
theorem mupdate_eq_self (m : SessionMapping) (k : String) (e : HierEntry)
    (h : m k = some e) : mupdate m k e = m := by
  funext x
  by_cases hx : x = k
  · subst hx; simp [mupdate, h]
  · simp [mupdate, hx]

/-- The parent entry after `ensureParent`. -/
theorem ensureParent_p (m : SessionMapping) (p : String) :
    ensureParent m p p =
      some ((m p).getD { parentId := none, childIds := [], label := none }) := by
  rcases h : m p with _ | e <;> simp [ensureParent, h, mupdate]

/-- Frame: `ensureParent` only touches the parent key. -/
theorem ensureParent_other (m : SessionMapping) (p x : String) (h : x ≠ p) :
    ensureParent m p x = m x := by
  rcases hp : m p with _ | e <;> simp [ensureParent, hp, mupdate, h]

/-- Identity case: `ensureParent` is the identity when the parent entry exists. -/
theorem ensureParent_of_isSome (m : SessionMapping) (p : String)
    (h : (m p).isSome = true) : ensureParent m p = m := by
  rcases hp : m p with _ | e
  · rw [hp] at h; cases h
  · simp [ensureParent, hp]

/-- The child entry after `upsertChild`. -/
theorem upsertChild_c (m : SessionMapping) (p c : String) (l : Option String) :
    upsertChild m p c l c =
      some (match m c with
        | none => { parentId := some p, childIds := [], label := l }
        | some e =>
            { parentId := some p, childIds := e.childIds,
              label := if jsTruthyStr l then l else e.label }) := by
  rcases h : m c with _ | e <;> simp [upsertChild, h, mupdate]

/-- Frame: `upsertChild` only touches the child key. -/
theorem upsertChild_other (m : SessionMapping) (p c : String) (l : Option String)
    (x : String) (h : x ≠ c) : upsertChild m p c l x = m x := by
  rcases hc : m c with _ | e <;> simp [upsertChild, hc, mupdate, h]

/-- The parent entry after `appendChild`, given it exists. -/
theorem appendChild_p (m : SessionMapping) (p c : String) (pe : HierEntry)
    (h : m p = some pe) :
    appendChild m p c p =
      some { pe with
        childIds := if c ∈ pe.childIds then pe.childIds else pe.childIds ++ [c] } := by
  simp only [appendChild, h]
  split_ifs with hc
  · simp [h, hc]
  · simp [mupdate, hc]

/-- Frame: `appendChild` only touches the parent key. -/
theorem appendChild_other (m : SessionMapping) (p c x : String) (h : x ≠ p) :
    appendChild m p c x = m x := by
  rcases hp : m p with _ | pe
  · simp [appendChild, hp]
  · simp only [appendChild, hp]
    split_ifs <;> simp [mupdate, h]

/-- Identity case: `appendChild` is the identity when the child is already listed. -/
theorem appendChild_eq_self (m : SessionMapping) (p c : String) (pe : HierEntry)
    (h : m p = some pe) (hc : c ∈ pe.childIds) : appendChild m p c = m := by
  simp [appendChild, h, hc]

/-- After the first two blocks of `addSpawn` the parent entry exists and its
child list is unchanged (also when `parentId = childId`). -/
theorem upsert_ensure_p (m : SessionMapping) (p c : String) (l : Option String) :
    ∃ q, upsertChild (ensureParent m p) p c l p = some q ∧
      q.childIds = getChildren m p := by
  by_cases hpc : p = c
  · subst hpc
    rw [upsertChild_c, ensureParent_p]
    refine ⟨_, rfl, ?_⟩
    rcases h : m p with _ | e <;> simp [getChildren, h]
  · rw [upsertChild_other _ _ _ _ _ hpc, ensureParent_p]
    refine ⟨_, rfl, ?_⟩
    rcases h : m p with _ | e <;> simp [getChildren, h]

/-- Effect of `addSpawn` on every child list: the child is appended to the
parent list when absent; all other lists are untouched. -/
theorem getChildren_addSpawn (m : SessionMapping) (p c : String) (l : Option String)
    (k : String) :
    getChildren (addSpawn m p c l) k =
      if k = p then
        (if c ∈ getChildren m p then getChildren m p else getChildren m p ++ [c])
      else getChildren m k := by
  obtain ⟨q, hq, hqc⟩ := upsert_ensure_p m p c l
  by_cases hk : k = p
  · subst hk
    have hA := appendChild_p (upsertChild (ensureParent m k) k c l) k c q hq
    rw [if_pos rfl]
    show getChildren (appendChild (upsertChild (ensureParent m k) k c l) k c) k = _
    simp [getChildren, hA, hqc]
  · have hA := appendChild_other (upsertChild (ensureParent m p) p c l) p c k hk
    rw [if_neg hk]
    show getChildren (appendChild (upsertChild (ensureParent m p) p c l) p c) k = _
    by_cases hkc : k = c
    · subst hkc
      have hu := upsertChild_c (ensureParent m p) p k l
      rw [ensureParent_other m p k hk] at hu
      simp only [getChildren, hA, hu]
      rcases h : m k with _ | e <;> simp [h]
    · have hu := upsertChild_other (ensureParent m p) p c l k hkc
      rw [ensureParent_other m p k hk] at hu
      simp [getChildren, hA, hu]

/-- The child entry after `addSpawn`: it exists, records the parent, and
carries the label when the label is truthy. -/
theorem addSpawn_c_entry (m : SessionMapping) (p c : String) (l : Option String) :
    ∃ ce, addSpawn m p c l c = some ce ∧ ce.parentId = some p ∧
      (jsTruthyStr l = true → ce.label = l) := by
  by_cases hpc : p = c
  · subst hpc
    have h1 := ensureParent_p m p
    have h2 : upsertChild (ensureParent m p) p p l p =
        some { parentId := some p,
               childIds := ((m p).getD { parentId := none, childIds := [], label := none }).childIds,
               label := if jsTruthyStr l then l
                 else ((m p).getD { parentId := none, childIds := [], label := none }).label } := by
      rw [upsertChild_c, h1]
    unfold addSpawn
    rw [appendChild_p _ _ _ _ h2]
    refine ⟨_, rfl, rfl, fun ht => by simp [ht]⟩
  · unfold addSpawn
    rw [appendChild_other _ _ _ _ (fun h => hpc h.symm)]
    rw [upsertChild_c, ensureParent_other _ _ _ (fun h => hpc h.symm)]
    rcases h : m c with _ | e
    · exact ⟨_, rfl, rfl, fun _ => rfl⟩
    · refine ⟨_, rfl, rfl, fun ht => by simp [ht]⟩

/-- The parent entry after `addSpawn` exists and contains the child. -/
theorem addSpawn_p_entry (m : SessionMapping) (p c : String) (l : Option String) :
    ∃ pe, addSpawn m p c l p = some pe ∧ c ∈ pe.childIds := by
  have hgc : c ∈ getChildren (addSpawn m p c l) p := by
    rw [getChildren_addSpawn, if_pos rfl]
    split_ifs with hmem
    · exact hmem
    · simp
  rcases h : addSpawn m p c l p with _ | pe
  · simp [getChildren, h] at hgc
  · exact ⟨pe, rfl, by simpa [getChildren, h] using hgc⟩

/-- Idempotence of `addSpawn`, for every mapping and arguments. -/
theorem addSpawn_idem (m : SessionMapping) (p c : String) (l : Option String) :
    addSpawn (addSpawn m p c l) p c l = addSpawn m p c l := by
  obtain ⟨ce, hce, hcp, hcl⟩ := addSpawn_c_entry m p c l
  obtain ⟨pe, hpe, hpc⟩ := addSpawn_p_entry m p c l
  have e1 : ensureParent (addSpawn m p c l) p = addSpawn m p c l :=
    ensureParent_of_isSome _ _ (by simp [hpe])
  have hentry :
      ({ parentId := some p, childIds := ce.childIds,
         label := if jsTruthyStr l then l else ce.label } : HierEntry) = ce := by
    cases ce with
    | mk cp cc clab =>
        simp only at hcp hcl
        subst hcp
        by_cases ht : jsTruthyStr l = true
        · simp [ht, hcl ht]
        · simp [ht]
  have e2 : upsertChild (addSpawn m p c l) p c l = addSpawn m p c l := by
    funext x
    by_cases hx : x = c
    · subst hx
      rw [upsertChild_c, hce]
      exact congrArg some hentry
    · rw [upsertChild_other _ _ _ _ _ hx]
  have e3 : appendChild (addSpawn m p c l) p c = addSpawn m p c l :=
    appendChild_eq_self _ _ _ _ hpe hpc
  show appendChild (upsertChild (ensureParent (addSpawn m p c l) p) p c l) p c
      = addSpawn m p c l
  rw [e1, e2, e3]

/-- Child lists of reachable store states never contain duplicates. -/
theorem reachableMapping_nodup {m : SessionMapping} (h : ReachableMapping m) :
    ∀ k, (getChildren m k).Nodup := by
  induction h with
  | empty => intro k; simp [getChildren, emptyMapping]
  | addSpawn p c l _ ih =>
      intro k
      rw [getChildren_addSpawn]
      split_ifs with hk hc
      · exact ih p
      · simp [List.nodup_append, ih p, hc]
      · exact ih k

/-- C9.  `addSpawn` is idempotent (for every mapping state), and on a
reachable store state adding a child `c` under parent `p` with label `"L"`
leaves `c` in `getChildren(p)` exactly once, with both `p` and `c` present
as entries. -/
theorem addSpawn_idempotent (m : SessionMapping) (p c : String)
    (h : ReachableMapping m) :
    addSpawn (addSpawn m p c (some "L")) p c (some "L") = addSpawn m p c (some "L") ∧
    (getChildren (addSpawn m p c (some "L")) p).count c = 1 ∧
    (addSpawn m p c (some "L") p).isSome = true ∧
    (addSpawn m p c (some "L") c).isSome = true := by
  refine ⟨addSpawn_idem m p c (some "L"), ?_, ?_, ?_⟩
  · rw [getChildren_addSpawn, if_pos rfl]
    split_ifs with hc
    · exact List.count_eq_one_of_mem (reachableMapping_nodup h p) hc
    · rw [List.count_append]
      simp [List.count_eq_zero.mpr hc]
  · obtain ⟨pe, hpe, _⟩ := addSpawn_p_entry m p c (some "L")
    simp [hpe]
  · obtain ⟨ce, hce, _, _⟩ := addSpawn_c_entry m p c (some "L")
    simp [hce]

/-- Witness for `addSpawn_idempotent` at the empty store and ids `"p"`,
`"c"`. -/
theorem addSpawn_idempotent_witness :
    addSpawn (addSpawn emptyMapping "p" "c" (some "L")) "p" "c" (some "L") =
      addSpawn emptyMapping "p" "c" (some "L") ∧
    (getChildren (addSpawn emptyMapping "p" "c" (some "L")) "p").count "c" = 1 ∧
    (addSpawn emptyMapping "p" "c" (some "L") "p").isSome = true ∧
    (addSpawn emptyMapping "p" "c" (some "L") "c").isSome = true :=
  addSpawn_idempotent emptyMapping "p" "c" ReachableMapping.empty

end OpenClaw
